import Mathlib

set_option autoImplicit false

/-!
Verification of the LSP conversion layer in crates/nil/src/convert.rs:
a shallow embedding of the analysis-side data, the protocol-side data and
every converter, followed by theorems about them.  The per-file Coordinate
Index (LineMap, crates/nil/src/vfs.rs) is not among the given sources, so
its two operations are modelled from the specification in namespace Coord.
-/

namespace Nil

/-! ## Analysis-side data (the ide crate's interface, as used by convert.rs) -/

/-- Opaque handle to a tracked document, issued by the document store. -/
abbrev FileId := Nat

/-- Half-open byte range over a file's text (text_size::TextRange). -/
structure TextRange where
  start : Nat
  «end» : Nat
deriving DecidableEq, Repr

/-- A byte range paired with the file it lies in (ide::FileRange). -/
structure FileRange where
  file_id : FileId
  range : TextRange
deriving DecidableEq, Repr

/-- ide::Severity, matched exhaustively at convert.rs lines 56-60. -/
inductive Severity where
  | Error
  | Warning
  | IncompleteSyntax
deriving DecidableEq, Repr

/-- ide::Diagnostic as consumed by convert.rs: the fields mirror the
accessors used there (severity(), range, message(), notes, is_deprecated(),
is_unnecessary()). -/
structure Diagnostic where
  severity : Severity
  range : TextRange
  message : String
  notes : List (FileRange × String)
  is_deprecated : Bool
  is_unnecessary : Bool
deriving DecidableEq, Repr

/-- ide::CompletionItemKind, the closed 7-variant set. -/
inductive CompletionItemKind where
  | Keyword
  | Param
  | LetBinding
  | Field
  | BuiltinConst
  | BuiltinFunction
  | BuiltinAttrset
deriving DecidableEq, Repr

/-- ide::CompletionItem as used by to_completion_item. -/
structure CompletionItem where
  kind : CompletionItemKind
  label : String
  source_range : TextRange
  replace : String
deriving DecidableEq, Repr

/-- ide::TextEdit: replace the byte range `delete` with the text `insert`. -/
structure TextEdit where
  delete : TextRange
  insert : String
deriving DecidableEq, Repr

/-- ide::WorkspaceEdit: per-file edit lists (the map modelled as an
association list). -/
structure WorkspaceEdit where
  content_edits : List (FileId × List TextEdit)
deriving DecidableEq, Repr

/-- The per-file Coordinate Index as convert.rs consumes it: only its
line_col operation is called there (inside to_range). -/
structure LineMap where
  line_col : Nat → Nat × Nat

/-- The document store snapshot as convert.rs consumes it: URI lookup and
per-file Coordinate Index lookup. -/
structure Vfs where
  uri_for_file : FileId → String
  file_line_map : FileId → LineMap

/-! ## Protocol-side data (lsp_types, the fields convert.rs populates) -/

namespace lsp

structure Position where
  line : Nat
  character : Nat
deriving DecidableEq, Repr

structure Range where
  start : Position
  «end» : Position
deriving DecidableEq, Repr

structure Location where
  uri : String
  range : Range
deriving DecidableEq, Repr

inductive DiagnosticSeverity where
  | ERROR
  | WARNING
  | INFORMATION
  | HINT
deriving DecidableEq, Repr

inductive DiagnosticTag where
  | DEPRECATED
  | UNNECESSARY
deriving DecidableEq, Repr

structure DiagnosticRelatedInformation where
  location : Location
  message : String
deriving DecidableEq, Repr

structure Diagnostic where
  severity : Option DiagnosticSeverity
  range : Range
  code : Option String
  code_description : Option String
  source : Option String
  message : String
  related_information : Option (List DiagnosticRelatedInformation)
  tags : Option (List DiagnosticTag)
  data : Option String
deriving DecidableEq, Repr

inductive CompletionItemKind where
  | KEYWORD
  | VARIABLE
  | FIELD
  | CONSTANT
  | FUNCTION
  | CLASS
deriving DecidableEq, Repr

inductive InsertTextFormat where
  | PLAIN_TEXT
  | SNIPPET
deriving DecidableEq, Repr

inductive InsertTextMode where
  | AS_IS
  | ADJUST_INDENTATION
deriving DecidableEq, Repr

structure TextEdit where
  range : Range
  new_text : String
deriving DecidableEq, Repr

inductive CompletionTextEdit where
  | Edit (edit : TextEdit)
deriving DecidableEq, Repr

/-- lsp_types::CompletionItem, restricted to the fields convert.rs sets;
the remaining fields come from Default::default() and stay at their
defaults, modelled by the defaulted fields below. -/
structure CompletionItem where
  label : String
  kind : Option CompletionItemKind
  insert_text : Option String
  insert_text_format : Option InsertTextFormat
  insert_text_mode : Option InsertTextMode
  text_edit : Option CompletionTextEdit
  detail : Option String := none
  documentation : Option String := none
deriving DecidableEq, Repr

/-- lsp_types::WorkspaceEdit, with the changes map modelled as an
association list keyed by URI. -/
structure WorkspaceEdit where
  changes : Option (List (String × List TextEdit))
  document_changes : Option Unit
  change_annotations : Option Unit
deriving DecidableEq, Repr

end lsp

/-- lsp::PrepareRenameResponse. -/
inductive PrepareRenameResponse where
  | Range (range : lsp.Range)
  | RangeWithPlaceholder (range : lsp.Range) (placeholder : String)
  | DefaultBehavior (default_behavior : Bool)
deriving DecidableEq, Repr

/-- lsp_server::ErrorCode (the protocol's request-failure codes). -/
inductive ErrorCode where
  | ParseError
  | InvalidRequest
  | MethodNotFound
  | InvalidParams
  | InternalError
deriving DecidableEq, Repr

/-- crate::LspError: structured request failure, code plus message. -/
structure LspError where
  code : ErrorCode
  message : String
deriving DecidableEq, Repr

/-! ## The converters (convert.rs lines 35-194) -/

/-- convert.rs lines 41-45: project a byte range into a protocol range via
the Coordinate Index. -/
def to_range (line_map : LineMap) (range : TextRange) : lsp.Range :=
  let lc1 := line_map.line_col range.start
  let lc2 := line_map.line_col range.«end»
  { start := { line := lc1.1, character := lc1.2 }
    «end» := { line := lc2.1, character := lc2.2 } }

/-- convert.rs lines 35-39: resolve the file's URI and Coordinate Index and
pair them into a protocol location. -/
def to_location (vfs : Vfs) (frange : FileRange) : lsp.Location :=
  let uri := vfs.uri_for_file frange.file_id
  let line_map := vfs.file_line_map frange.file_id
  { uri := uri, range := to_range line_map frange.range }

/-- convert.rs lines 55-88: the primary protocol diagnostic built for a
surviving diagnostic, with the already-mapped severity passed in. -/
def primary_diag (vfs : Vfs) (file : FileId) (diag : Diagnostic)
    (sev : lsp.DiagnosticSeverity) : lsp.Diagnostic :=
  { severity := some sev
    range := to_range (vfs.file_line_map file) diag.range
    code := none
    code_description := none
    source := none
    message := diag.message
    related_information := some (diag.notes.map fun note =>
      { location := to_location vfs note.1, message := note.2 })
    tags := some ((if diag.is_deprecated then [lsp.DiagnosticTag.DEPRECATED] else []) ++
      (if diag.is_unnecessary then [lsp.DiagnosticTag.UNNECESSARY] else []))
    data := none }

/-- convert.rs lines 90-111: hoist each same-file note to a standalone Hint
diagnostic; notes in other files are skipped.  The fields copied from the
primary (code, code_description, source) are all None there. -/
def hoisted_hints (vfs : Vfs) (file : FileId) (diag : Diagnostic) :
    List lsp.Diagnostic :=
  (diag.notes.filter fun note => note.1.file_id = file).map fun note =>
    { severity := some lsp.DiagnosticSeverity.HINT
      range := to_range (vfs.file_line_map file) note.1.range
      code := none
      code_description := none
      source := none
      message := note.2
      related_information := some [{ location := to_location vfs ⟨file, diag.range⟩
                                     message := "original diagnostic" }]
      tags := none
      data := none }

/-- convert.rs lines 47-117: per input diagnostic, match the severity
(IncompleteSyntax plays continue and drops the diagnostic), then push the
hoisted hints followed by the primary diagnostic. -/
def to_diagnostics (vfs : Vfs) (file : FileId) : List Diagnostic → List lsp.Diagnostic
  | [] => []
  | diag :: rest =>
    match diag.severity with
    | Severity.Error =>
      hoisted_hints vfs file diag
        ++ primary_diag vfs file diag lsp.DiagnosticSeverity.ERROR
          :: to_diagnostics vfs file rest
    | Severity.Warning =>
      hoisted_hints vfs file diag
        ++ primary_diag vfs file diag lsp.DiagnosticSeverity.WARNING
          :: to_diagnostics vfs file rest
    | Severity.IncompleteSyntax => to_diagnostics vfs file rest

/-- convert.rs lines 119-143: completion item translation with the fixed
kind table. -/
def to_completion_item (line_map : LineMap) (item : CompletionItem) :
    lsp.CompletionItem :=
  let kind := match item.kind with
    | CompletionItemKind.Keyword => lsp.CompletionItemKind.KEYWORD
    | CompletionItemKind.Param => lsp.CompletionItemKind.VARIABLE
    | CompletionItemKind.LetBinding => lsp.CompletionItemKind.VARIABLE
    | CompletionItemKind.Field => lsp.CompletionItemKind.FIELD
    | CompletionItemKind.BuiltinConst => lsp.CompletionItemKind.CONSTANT
    | CompletionItemKind.BuiltinFunction => lsp.CompletionItemKind.FUNCTION
    | CompletionItemKind.BuiltinAttrset => lsp.CompletionItemKind.CLASS
  { label := item.label
    kind := some kind
    insert_text := none
    insert_text_format := some lsp.InsertTextFormat.PLAIN_TEXT
    insert_text_mode := some lsp.InsertTextMode.ADJUST_INDENTATION
    text_edit := some (lsp.CompletionTextEdit.Edit
      { range := to_range line_map item.source_range
        new_text := item.replace }) }

/-- convert.rs lines 145-150: rename rejection as an InvalidRequest error
carrying the engine's message. -/
def to_rename_error (message : String) : LspError :=
  { code := ErrorCode.InvalidRequest
    message := message }

/-- convert.rs lines 152-164: prepare-rename response with the projected
range and the current text as placeholder. -/
def to_prepare_rename_response (vfs : Vfs) (file : FileId) (range : TextRange)
    (text : String) : PrepareRenameResponse :=
  let line_map := vfs.file_line_map file
  let range := to_range line_map range
  PrepareRenameResponse.RangeWithPlaceholder range text

/-- convert.rs lines 189-194: one text edit. -/
def to_text_edit (line_map : LineMap) (edit : TextEdit) : lsp.TextEdit :=
  { range := to_range line_map edit.delete
    new_text := edit.insert }

/-- convert.rs lines 166-187: per file, resolve its URI and its own line
map and translate its edit list in order. -/
def to_workspace_edit (vfs : Vfs) (ws_edit : WorkspaceEdit) : lsp.WorkspaceEdit :=
  let content_edits := ws_edit.content_edits.map fun fe =>
    let uri := vfs.uri_for_file fe.1
    let edits := fe.2.map fun edit =>
      let line_map := vfs.file_line_map fe.1
      to_text_edit line_map edit
    (uri, edits)
  { changes := some content_edits
    document_changes := none
    change_annotations := none }

/-! ## The Coordinate Index, modelled from the spec

The LineMap implementation lives in crates/nil/src/vfs.rs, which is not
among the given sources; its two operations are modelled here from the
specification of the Coordinate Index.  A file's text is a list of
characters; byte offsets are UTF-8 byte counts and columns are UTF-16
code-unit counts. -/

namespace Coord

/-- UTF-16 width of a character: 2 code units for a codepoint outside the
Basic Multilingual Plane, 1 otherwise. -/
def utf16Len (c : Char) : Nat :=
  if c.toNat < 0x10000 then 1 else 2

/-- Total UTF-8 byte length of a character list. -/
def byteLen (l : List Char) : Nat :=
  (l.map Char.utf8Size).sum

/-- The byte offsets of the text that lie on a character boundary. -/
def boundaries : List Char → List Nat
  | [] => [0]
  | c :: cs => 0 :: (boundaries cs).map (fun off => c.utf8Size + off)

/-- Modelled from the spec: walk the text consuming the given byte offset,
counting lines (a newline increments the line and resets the column) and
UTF-16 units within the current line. -/
def lineColAux : List Char → Nat → Nat → Nat → Nat × Nat
  | [], _, line, col => (line, col)
  | c :: cs, off, line, col =>
    if off = 0 then (line, col)
    else if c = '\n' then lineColAux cs (off - c.utf8Size) (line + 1) 0
    else lineColAux cs (off - c.utf8Size) line (col + utf16Len c)

/-- Modelled from the spec: line_col(offset) returns the 0-based line and
the UTF-16-unit count from that line's start to the offset, for a
boundary-aligned offset. -/
def line_col (text : List Char) (offset : Nat) : Nat × Nat :=
  lineColAux text offset 0 0

/-- Number of newline characters in the text (number of lines minus one). -/
def nlCount (l : List Char) : Nat :=
  (l.filter fun c => c = '\n').length

/-- Modelled from the spec: advance within the current line, consuming the
requested UTF-16 units; a character count beyond the line's UTF-16 length
clamps to the line's end offset. -/
def posAux : List Char → Nat → Nat
  | [], _ => 0
  | c :: cs, character =>
    if c = '\n' then 0
    else if utf16Len c ≤ character then c.utf8Size + posAux cs (character - utf16Len c)
    else 0

/-- Modelled from the spec: skip the requested number of lines, then
advance within that line. -/
def posSeek : List Char → Nat → Nat → Nat
  | [], _, _ => 0
  | c :: cs, 0, character => posAux (c :: cs) character
  | c :: cs, l + 1, character =>
    c.utf8Size + (if c = '\n' then posSeek cs l character else posSeek cs (l + 1) character)

/-- Modelled from the spec: pos(line, character) is the inverse direction;
a line beyond the number of lines clamps to the last line, and the
character count clamps to that line's end. -/
def pos (text : List Char) (line character : Nat) : Nat :=
  posSeek text (min line (nlCount text)) character

/-- UTF-16 column at the end of the text: units after its last newline. -/
def colZ : List Char → Nat
  | [] => 0
  | c :: cs => if c ≠ '\n' ∧ nlCount cs = 0 then utf16Len c + colZ cs else colZ cs

end Coord

/-! ## Concrete sample values used to instantiate the theorems -/

/-- A small concrete Coordinate Index: a single line with identity columns. -/
def sampleLineMap : LineMap :=
  { line_col := fun off => (0, off) }

/-- A small concrete document store snapshot. -/
def sampleVfs : Vfs :=
  { uri_for_file := fun _ => "file:///a.nix"
    file_line_map := fun _ => sampleLineMap }

/-- An Error diagnostic with one same-file note, flagged deprecated. -/
def sampleDiagError : Diagnostic :=
  { severity := Severity.Error
    range := { start := 0, «end» := 1 }
    message := "msg"
    notes := [({ file_id := 0, range := { start := 2, «end» := 3 } }, "note")]
    is_deprecated := true
    is_unnecessary := false }

/-- An IncompleteSyntax diagnostic. -/
def sampleDiagIncomplete : Diagnostic :=
  { severity := Severity.IncompleteSyntax
    range := { start := 0, «end» := 1 }
    message := "oops"
    notes := []
    is_deprecated := false
    is_unnecessary := false }

/-- The hoisted hint that sampleDiagError's note produces for file 0. -/
def sampleHint : lsp.Diagnostic :=
  { severity := some lsp.DiagnosticSeverity.HINT
    range := to_range sampleLineMap { start := 2, «end» := 3 }
    code := none
    code_description := none
    source := none
    message := "note"
    related_information := some [{ location := to_location sampleVfs ⟨0, { start := 0, «end» := 1 }⟩
                                   message := "original diagnostic" }]
    tags := none
    data := none }

/-! ## Helper lemmas -/

namespace Coord

theorem utf16Len_pos (c : Char) : 0 < utf16Len c := by
  unfold utf16Len
  split <;> omega

theorem byteLen_nil : byteLen [] = 0 := rfl

theorem byteLen_cons (c : Char) (l : List Char) :
    byteLen (c :: l) = c.utf8Size + byteLen l := by
  simp [byteLen]

theorem lineColAux_zero (t : List Char) (line col : Nat) :
    lineColAux t 0 line col = (line, col) := by
  cases t <;> simp [lineColAux]

theorem nlCount_nil : nlCount [] = 0 := rfl

theorem nlCount_cons (c : Char) (l : List Char) :
    nlCount (c :: l) = nlCount l + (if c = '\n' then 1 else 0) := by
  simp only [nlCount, List.filter_cons]
  by_cases hc : c = '\n' <;> simp [hc]

theorem nlCount_append (a b : List Char) :
    nlCount (a ++ b) = nlCount a + nlCount b := by
  simp [nlCount, List.filter_append]

theorem lineColAux_byteLen (l r : List Char) : ∀ line col,
    lineColAux (l ++ r) (byteLen l) line col =
      (line + nlCount l, if nlCount l = 0 then col + colZ l else colZ l) := by
  induction l with
  | nil =>
    intro line col
    simp [byteLen_nil, lineColAux_zero, nlCount_nil, colZ]
  | cons c cs ih =>
    intro line col
    have hpos := Char.utf8Size_pos c
    have h0 : c.utf8Size + byteLen cs ≠ 0 := by omega
    rw [List.cons_append, byteLen_cons, lineColAux, if_neg h0]
    by_cases hc : c = '\n'
    · rw [if_pos hc, Nat.add_sub_cancel_left, ih]
      simp only [nlCount_cons, colZ, hc, Prod.mk.injEq]
      constructor
      · simp
        omega
      · split <;> simp
    · rw [if_neg hc, Nat.add_sub_cancel_left, ih]
      by_cases hz : nlCount cs = 0 <;>
        simp [nlCount_cons, colZ, hc, hz, Nat.add_assoc]

theorem line_col_byteLen (l r : List Char) :
    line_col (l ++ r) (byteLen l) = (nlCount l, colZ l) := by
  rw [line_col, lineColAux_byteLen]
  by_cases hz : nlCount l = 0 <;> simp [hz]

theorem posAux_zero (t : List Char) : posAux t 0 = 0 := by
  cases t with
  | nil => rfl
  | cons c cs =>
    rw [posAux]
    by_cases hc : c = '\n'
    · rw [if_pos hc]
    · have := utf16Len_pos c
      rw [if_neg hc, if_neg (by omega)]

theorem posSeek_zero_zero (t : List Char) : posSeek t 0 0 = 0 := by
  cases t with
  | nil => rfl
  | cons c cs =>
    rw [posSeek]
    exact posAux_zero _

theorem posAux_colZ (cs r : List Char) (h : nlCount cs = 0) :
    posAux (cs ++ r) (colZ cs) = byteLen cs := by
  induction cs with
  | nil => simpa [colZ, byteLen_nil] using posAux_zero r
  | cons d ds ih =>
    rw [nlCount_cons] at h
    have hd : d ≠ '\n' := by
      intro hd
      simp [hd] at h
    have hz : nlCount ds = 0 := by omega
    rw [List.cons_append, colZ, if_pos ⟨hd, hz⟩, posAux, if_neg hd,
      if_pos (Nat.le_add_right _ _), Nat.add_sub_cancel_left, ih hz, byteLen_cons]

theorem posSeek_byteLen (l r : List Char) :
    posSeek (l ++ r) (nlCount l) (colZ l) = byteLen l := by
  induction l with
  | nil => simpa [nlCount_nil, colZ, byteLen_nil] using posSeek_zero_zero r
  | cons c cs ih =>
    by_cases hc : c = '\n'
    · have h1 : nlCount (c :: cs) = nlCount cs + 1 := by simp [nlCount_cons, hc]
      have h2 : colZ (c :: cs) = colZ cs := by simp [colZ, hc]
      rw [List.cons_append, h1, h2, posSeek, if_pos hc, ih, byteLen_cons]
    · by_cases hz : nlCount cs = 0
      · have h1 : nlCount (c :: cs) = 0 := by simp [nlCount_cons, hc, hz]
        have h2 : colZ (c :: cs) = utf16Len c + colZ cs := by simp [colZ, hc, hz]
        rw [List.cons_append, h1, h2, posSeek, posAux, if_neg hc,
          if_pos (Nat.le_add_right _ _), Nat.add_sub_cancel_left,
          posAux_colZ cs r hz, byteLen_cons]
      · have h1 : nlCount (c :: cs) = nlCount cs := by simp [nlCount_cons, hc]
        have h2 : colZ (c :: cs) = colZ cs := by simp [colZ, hz]
        obtain ⟨m, hm⟩ : ∃ m, nlCount cs = m + 1 := ⟨nlCount cs - 1, by omega⟩
        rw [List.cons_append, h1, h2, hm, posSeek, if_neg hc, ← hm, ih, byteLen_cons]

theorem boundary_decomposition {text : List Char} {off : Nat}
    (h : off ∈ boundaries text) : ∃ l r, text = l ++ r ∧ off = byteLen l := by
  induction text generalizing off with
  | nil =>
    simp [boundaries] at h
    exact ⟨[], [], rfl, by simp [h, byteLen_nil]⟩
  | cons c cs ih =>
    simp only [boundaries, List.mem_cons, List.mem_map] at h
    rcases h with h | ⟨a, ha, rfl⟩
    · exact ⟨[], c :: cs, rfl, by simp [h, byteLen_nil]⟩
    · obtain ⟨l, r, hlr, hoff⟩ := ih ha
      exact ⟨c :: l, r, by rw [hlr, List.cons_append], by rw [byteLen_cons, hoff]⟩

end Coord

theorem to_diagnostics_append (vfs : Vfs) (file : FileId) (a b : List Diagnostic) :
    to_diagnostics vfs file (a ++ b) =
      to_diagnostics vfs file a ++ to_diagnostics vfs file b := by
  induction a with
  | nil => simp [to_diagnostics]
  | cons d rest ih =>
    cases h : d.severity <;> simp [to_diagnostics, h, ih]

/-! ## Theorems for the specification claims -/

/-- C1: a diagnostic of severity IncompleteSyntax contributes nothing to the
output of to_diagnostics: deleting it from the input leaves the output
unchanged, so neither a primary diagnostic nor any hoisted hint of it is
emitted, for every input list. -/
theorem incomplete_syntax_dropped (vfs : Vfs) (file : FileId)
    (pre post : List Diagnostic) (d : Diagnostic)
    (h : d.severity = Severity.IncompleteSyntax) :
    to_diagnostics vfs file (pre ++ d :: post) =
      to_diagnostics vfs file (pre ++ post) := by
  simp [to_diagnostics_append, to_diagnostics, h]

theorem incomplete_syntax_dropped_witness :
    sampleDiagIncomplete.severity = Severity.IncompleteSyntax ∧
      to_diagnostics sampleVfs 0 ([] ++ sampleDiagIncomplete :: []) =
        to_diagnostics sampleVfs 0 ([] ++ []) :=
  ⟨rfl, incomplete_syntax_dropped sampleVfs 0 [] [] sampleDiagIncomplete rfl⟩

/-- C2: every surviving (Error or Warning) diagnostic contributes, right
before its primary diagnostic and at its input position, one standalone
Hint per note whose range's file equals the conversion file — the hint's
range is the note's own range, its message the note's message, and its
single related-information entry points at the primary's location with the
fixed label — and no hoisted hint for a note in a different file; primaries
keep the input's relative order. -/
theorem surviving_diag_hint_hoisting (vfs : Vfs) (file : FileId)
    (pre post : List Diagnostic) (d : Diagnostic)
    (h : d.severity ≠ Severity.IncompleteSyntax) :
    ∃ sev, to_diagnostics vfs file (pre ++ d :: post) =
      to_diagnostics vfs file pre
        ++ ((d.notes.filter fun note => note.1.file_id = file).map fun note =>
            ({ severity := some lsp.DiagnosticSeverity.HINT
               range := to_range (vfs.file_line_map file) note.1.range
               code := none
               code_description := none
               source := none
               message := note.2
               related_information := some [{ location := to_location vfs ⟨file, d.range⟩
                                              message := "original diagnostic" }]
               tags := none
               data := none } : lsp.Diagnostic))
        ++ primary_diag vfs file d sev :: to_diagnostics vfs file post := by
  cases hs : d.severity with
  | Error =>
    refine ⟨lsp.DiagnosticSeverity.ERROR, ?_⟩
    rw [to_diagnostics_append]
    simp [to_diagnostics, hs, hoisted_hints]
  | Warning =>
    refine ⟨lsp.DiagnosticSeverity.WARNING, ?_⟩
    rw [to_diagnostics_append]
    simp [to_diagnostics, hs, hoisted_hints]
  | IncompleteSyntax => exact absurd hs h

theorem surviving_diag_hint_hoisting_witness :
    sampleDiagError.severity ≠ Severity.IncompleteSyntax ∧
      ∃ sev, to_diagnostics sampleVfs 0 ([] ++ sampleDiagError :: []) =
        to_diagnostics sampleVfs 0 []
          ++ ((sampleDiagError.notes.filter fun note => note.1.file_id = 0).map fun note =>
              ({ severity := some lsp.DiagnosticSeverity.HINT
                 range := to_range (sampleVfs.file_line_map 0) note.1.range
                 code := none
                 code_description := none
                 source := none
                 message := note.2
                 related_information := some [{ location := to_location sampleVfs ⟨0, sampleDiagError.range⟩
                                                message := "original diagnostic" }]
                 tags := none
                 data := none } : lsp.Diagnostic))
          ++ primary_diag sampleVfs 0 sampleDiagError sev :: to_diagnostics sampleVfs 0 [] :=
  ⟨by decide, surviving_diag_hint_hoisting sampleVfs 0 [] [] sampleDiagError (by decide)⟩

/-- C3: the primary diagnostic emitted for a surviving diagnostic has range
to_range of the primary byte range, tags holding DEPRECATED exactly when
the diagnostic is flagged deprecated and UNNECESSARY exactly when flagged
unnecessary, and one related-information entry per note via to_location,
whatever file each note points at. -/
theorem surviving_primary_shape (vfs : Vfs) (file : FileId)
    (pre post : List Diagnostic) (d : Diagnostic)
    (h : d.severity ≠ Severity.IncompleteSyntax) :
    ∃ p,
      to_diagnostics vfs file (pre ++ d :: post) =
          to_diagnostics vfs file pre ++ hoisted_hints vfs file d
            ++ p :: to_diagnostics vfs file post ∧
        p.range = to_range (vfs.file_line_map file) d.range ∧
        p.related_information = some (d.notes.map fun note =>
          ({ location := to_location vfs note.1, message := note.2 } :
            lsp.DiagnosticRelatedInformation)) ∧
        ∃ tl, p.tags = some tl ∧
          (lsp.DiagnosticTag.DEPRECATED ∈ tl ↔ d.is_deprecated = true) ∧
          (lsp.DiagnosticTag.UNNECESSARY ∈ tl ↔ d.is_unnecessary = true) := by
  cases hs : d.severity with
  | IncompleteSyntax => exact absurd hs h
  | Error =>
    refine ⟨primary_diag vfs file d lsp.DiagnosticSeverity.ERROR, ?_, rfl, rfl, ?_⟩
    · rw [to_diagnostics_append]
      simp [to_diagnostics, hs]
    · refine ⟨_, rfl, ?_, ?_⟩ <;>
        cases hd : d.is_deprecated <;> cases hu : d.is_unnecessary <;>
          simp [primary_diag, hd, hu]
  | Warning =>
    refine ⟨primary_diag vfs file d lsp.DiagnosticSeverity.WARNING, ?_, rfl, rfl, ?_⟩
    · rw [to_diagnostics_append]
      simp [to_diagnostics, hs]
    · refine ⟨_, rfl, ?_, ?_⟩ <;>
        cases hd : d.is_deprecated <;> cases hu : d.is_unnecessary <;>
          simp [primary_diag, hd, hu]

theorem surviving_primary_shape_witness :
    sampleDiagError.severity ≠ Severity.IncompleteSyntax ∧
      ∃ p,
        to_diagnostics sampleVfs 0 ([] ++ sampleDiagError :: []) =
            to_diagnostics sampleVfs 0 [] ++ hoisted_hints sampleVfs 0 sampleDiagError
              ++ p :: to_diagnostics sampleVfs 0 [] ∧
          p.range = to_range (sampleVfs.file_line_map 0) sampleDiagError.range ∧
          p.related_information = some (sampleDiagError.notes.map fun note =>
            ({ location := to_location sampleVfs note.1, message := note.2 } :
              lsp.DiagnosticRelatedInformation)) ∧
          ∃ tl, p.tags = some tl ∧
            (lsp.DiagnosticTag.DEPRECATED ∈ tl ↔ sampleDiagError.is_deprecated = true) ∧
            (lsp.DiagnosticTag.UNNECESSARY ∈ tl ↔ sampleDiagError.is_unnecessary = true) :=
  ⟨by decide, surviving_primary_shape sampleVfs 0 [] [] sampleDiagError (by decide)⟩

/-- C4: for every byte offset on a character boundary of the text, pos
composed after line_col gives back the offset (Coordinate Index round
trip). -/
theorem coordinate_round_trip (text : List Char) (offset : Nat)
    (h : offset ∈ Coord.boundaries text) :
    Coord.pos text (Coord.line_col text offset).1 (Coord.line_col text offset).2 =
      offset := by
  obtain ⟨l, r, rfl, rfl⟩ := Coord.boundary_decomposition h
  rw [Coord.line_col_byteLen]
  show Coord.posSeek (l ++ r) (min (Coord.nlCount l) (Coord.nlCount (l ++ r)))
    (Coord.colZ l) = Coord.byteLen l
  have hmin : min (Coord.nlCount l) (Coord.nlCount (l ++ r)) = Coord.nlCount l := by
    rw [Coord.nlCount_append]
    omega
  rw [hmin, Coord.posSeek_byteLen]

theorem coordinate_round_trip_witness :
    (6 ∈ Coord.boundaries ['a', '𝕏', '\n', 'b']) ∧
      Coord.pos ['a', '𝕏', '\n', 'b']
          (Coord.line_col ['a', '𝕏', '\n', 'b'] 6).1
          (Coord.line_col ['a', '𝕏', '\n', 'b'] 6).2 = 6 :=
  ⟨by decide, coordinate_round_trip ['a', '𝕏', '\n', 'b'] 6 (by decide)⟩

/-- C5: to_completion_item maps the 7 analysis completion kinds to protocol
kinds exactly by the fixed table, with no other mapping. -/
theorem completion_kind_table (line_map : LineMap) (item : CompletionItem) :
    (to_completion_item line_map item).kind =
      some (match item.kind with
        | CompletionItemKind.Keyword => lsp.CompletionItemKind.KEYWORD
        | CompletionItemKind.Param => lsp.CompletionItemKind.VARIABLE
        | CompletionItemKind.LetBinding => lsp.CompletionItemKind.VARIABLE
        | CompletionItemKind.Field => lsp.CompletionItemKind.FIELD
        | CompletionItemKind.BuiltinConst => lsp.CompletionItemKind.CONSTANT
        | CompletionItemKind.BuiltinFunction => lsp.CompletionItemKind.FUNCTION
        | CompletionItemKind.BuiltinAttrset => lsp.CompletionItemKind.CLASS) := by
  cases h : item.kind <;> simp [to_completion_item, h]

/-- C6: every protocol completion item keeps the input label, has no plain
insert text (insertion is a text edit over to_range of the source range
with the replacement text verbatim), plain-text insert format, and
adjust-indentation insert mode. -/
theorem completion_item_edit_shape (line_map : LineMap) (item : CompletionItem) :
    (to_completion_item line_map item).label = item.label ∧
      (to_completion_item line_map item).insert_text = none ∧
      (to_completion_item line_map item).insert_text_format =
        some lsp.InsertTextFormat.PLAIN_TEXT ∧
      (to_completion_item line_map item).insert_text_mode =
        some lsp.InsertTextMode.ADJUST_INDENTATION ∧
      (to_completion_item line_map item).text_edit =
        some (lsp.CompletionTextEdit.Edit
          { range := to_range line_map item.source_range
            new_text := item.replace }) :=
  ⟨rfl, rfl, rfl, rfl, rfl⟩

/-- C7: to_workspace_edit translates each file's edit list with that file's
own document identifier and Coordinate Index, pairing to_range of each
edit's byte range with its replacement text in input order; the output maps
document identifiers to translated lists with one entry per input file, so
files without edits are absent. -/
theorem workspace_edit_per_file (vfs : Vfs) (ws_edit : WorkspaceEdit) :
    (to_workspace_edit vfs ws_edit).changes =
        some (ws_edit.content_edits.map fun fe =>
          (vfs.uri_for_file fe.1, fe.2.map fun edit =>
            ({ range := to_range (vfs.file_line_map fe.1) edit.delete
               new_text := edit.insert } : lsp.TextEdit))) ∧
      (to_workspace_edit vfs ws_edit).document_changes = none :=
  ⟨rfl, rfl⟩

/-- C8: prepare-rename translation returns a range-with-placeholder
response whose range is to_range of the byte range and whose placeholder is
the current text unchanged. -/
theorem prepare_rename_shape (vfs : Vfs) (file : FileId) (range : TextRange)
    (text : String) :
    to_prepare_rename_response vfs file range text =
      PrepareRenameResponse.RangeWithPlaceholder
        (to_range (vfs.file_line_map file) range) text :=
  rfl

/-- C9: a rename rejection becomes a structured error with the protocol's
invalid-request code and the engine's message verbatim. -/
theorem rename_error_invalid_request (message : String) :
    (to_rename_error message).code = ErrorCode.InvalidRequest ∧
      (to_rename_error message).message = message :=
  ⟨rfl, rfl⟩

/-- C10: every Hint-severity diagnostic that to_diagnostics emits carries
no tags: DEPRECATED and UNNECESSARY appear only on primaries, never on
hoisted hints, whatever the originating diagnostic's flags. -/
theorem hint_carries_no_tags (vfs : Vfs) (file : FileId) (diags : List Diagnostic)
    (q : lsp.Diagnostic) (hq : q ∈ to_diagnostics vfs file diags)
    (hsev : q.severity = some lsp.DiagnosticSeverity.HINT) :
    q.tags = none := by
  induction diags with
  | nil => simp [to_diagnostics] at hq
  | cons d rest ih =>
    cases hs : d.severity with
    | IncompleteSyntax =>
      simp only [to_diagnostics, hs] at hq
      exact ih hq
    | Error =>
      simp only [to_diagnostics, hs, List.mem_append, List.mem_cons] at hq
      rcases hq with hmem | hp | hmem
      · simp only [hoisted_hints] at hmem
        obtain ⟨note, -, rfl⟩ := List.mem_map.mp hmem
        rfl
      · rw [hp] at hsev
        simp [primary_diag] at hsev
      · exact ih hmem
    | Warning =>
      simp only [to_diagnostics, hs, List.mem_append, List.mem_cons] at hq
      rcases hq with hmem | hp | hmem
      · simp only [hoisted_hints] at hmem
        obtain ⟨note, -, rfl⟩ := List.mem_map.mp hmem
        rfl
      · rw [hp] at hsev
        simp [primary_diag] at hsev
      · exact ih hmem

theorem hint_carries_no_tags_witness :
    sampleHint ∈ to_diagnostics sampleVfs 0 [sampleDiagError] ∧
      sampleHint.severity = some lsp.DiagnosticSeverity.HINT ∧
      sampleHint.tags = none :=
  ⟨by decide, by decide,
    hint_carries_no_tags sampleVfs 0 [sampleDiagError] sampleHint (by decide) (by decide)⟩

end Nil
